import Mathlib

/-!
Verification development for the dockdiver registry extraction tool.

Each definition below is a shallow embedding of a function from the Go
source (client/client.go, registry/registry.go, main.go, utils/utils.go):
pure string manipulation becomes Lean functions on String/List Char,
machine integers become Nat/Int, network I/O becomes explicit oracle
parameters (a function giving the outcome of each attempt, the page served
at each URL, the bytes a proxy answers with), and the filesystem becomes
an explicit map from filename to file contents.  Side effects that the
code performs (sleeping between retries, consuming a rate-limiter token,
issuing an HTTP request, printing a progress line) are recorded in
explicit event traces so that properties about them can be stated.
-/

namespace Dockdiver

/-! ## String helpers mirroring the Go strings package -/

/-- Model of Go strings.Contains: sub occurs contiguously inside s. -/
def goContains (s sub : String) : Bool :=
  let ls := s.toList
  let lsub := sub.toList
  (List.range (ls.length + 1)).any fun i => (ls.drop i).take lsub.length == lsub

/-- Model of Go strings.Split(s, ";") (single-character separator). -/
def goSplitSemiAux : List Char → List Char → List String
  | [], acc => [String.mk acc.reverse]
  | c :: cs, acc =>
      if c = ';' then String.mk acc.reverse :: goSplitSemiAux cs []
      else goSplitSemiAux cs (c :: acc)

/-- Model of Go strings.Split(s, ";"). -/
def goSplitSemi (s : String) : List String :=
  goSplitSemiAux s.toList []

/-- Model of Go strings.Trim(s, cutset): remove leading and trailing
characters belonging to the cutset. -/
def goTrimCutset (s : String) (cutset : List Char) : String :=
  String.mk (((s.toList.dropWhile (cutset.contains ·)).reverse.dropWhile
    (cutset.contains ·)).reverse)

/-- Model of Go strings.HasPrefix. -/
def goStartsWith (s pre : String) : Bool :=
  s.toList.take pre.toList.length == pre.toList

/-! ## client.go: isConnectionClosedError and MakeRequest -/

/-- Embeds isConnectionClosedError (client.go:181): substring tests on
the error message. -/
def isConnectionClosedError (msg : String) : Bool :=
  goContains msg "use of closed network connection" ||
  goContains msg "connection reset by peer" ||
  goContains msg "broken pipe"

/-- Outcome of one HTTPClient.Do attempt: either a transport-level error
(carrying whether it is a net.Error, whether it reported Timeout, and its
message) or an HTTP response with a status code and the value of the
Www-Authenticate header. -/
inductive Outcome where
  | netError (isNetErr timeoutFlag : Bool) (msg : String)
  | response (status : Nat) (wwwAuth : String)

/-- Events MakeRequest performs, in order: consuming one rate-limiter
token (Limiter.Wait), issuing the HTTP request of a given attempt
(HTTPClient.Do), and sleeping a number of seconds (time.Sleep backoff). -/
inductive Ev where
  | tok
  | req (attempt : Nat)
  | sleep (secs : Nat)
deriving DecidableEq

/-- An attempt outcome that the retry loop classifies as retryable:
a net.Error that is a timeout or a closed-connection error. -/
def transientRetryable : Outcome → Bool
  | .netError ne tmo msg => ne && (tmo || isConnectionClosedError msg)
  | .response _ _ => false

/-- maxRetries constant of MakeRequest (client.go:121). -/
def maxRetries : Nat := 3

/-- Embeds the retry loop of MakeRequest (client.go:122-177).  The oracle
gives the outcome of each attempt; the result is paired with the trace of
requests issued and backoff sleeps performed.  The fuel equals the number
of remaining loop iterations (the Go loop runs attempt = 1..maxRetries). -/
def mrLoop (oracle : Nat → Outcome) : Nat → Nat → Except String Nat × List Ev
  | 0, _ => (.error "request failed after 3 retries", [])
  | fuel + 1, attempt =>
      match oracle attempt with
      | .netError ne tmo msg =>
          if ne && (tmo || isConnectionClosedError msg) && decide (attempt < maxRetries) then
            let r := mrLoop oracle fuel (attempt + 1)
            (r.1, Ev.req attempt :: Ev.sleep (2 ^ (attempt - 1)) :: r.2)
          else (.error ("request failed: " ++ msg), [Ev.req attempt])
      | .response st wa =>
          if st == 401 && wa != "" then (.error ("unauthorized: " ++ wa), [Ev.req attempt])
          else if st != 200 then (.error "unexpected status", [Ev.req attempt])
          else (.ok st, [Ev.req attempt])

/-- Embeds MakeRequest (client.go:116-178): one Limiter.Wait (a single
token) before the retry loop, then the loop itself. -/
def MakeRequest (oracle : Nat → Outcome) : Except String Nat × List Ev :=
  let r := mrLoop oracle maxRetries 1
  (r.1, Ev.tok :: r.2)

/-- Number of HTTP requests issued in a trace. -/
def countReq (evs : List Ev) : Nat :=
  evs.countP fun e => match e with | .req _ => true | _ => false

/-- Number of rate-limiter tokens consumed in a trace. -/
def countTok (evs : List Ev) : Nat :=
  evs.countP fun e => match e with | .tok => true | _ => false

/-- The backoff sleeps of a trace, in order, in seconds. -/
def sleeps (evs : List Ev) : List Nat :=
  evs.filterMap fun e => match e with | .sleep s => some s | _ => none

/-! ## client.go: request header construction inside MakeRequest -/

/-- AuthConfig (client.go:55), minus the raw JSON custom-header string,
which MakeRequest decodes into a key/value map before applying. -/
structure AuthConfig where
  username : String
  password : String
  bearer : String

/-- HTTP headers as a map from (canonical) header name to value;
http.Header.Set replaces any previous value of the key. -/
def Headers := String → Option String

/-- Model of req.Header.Set. -/
def hset (h : Headers) (k v : String) : Headers :=
  fun k' => if k' = k then some v else h k'

/-- Embeds the header-building sequence of MakeRequest
(client.go:128-145): User-Agent, Accept, Connection, then
req.SetBasicAuth when username and password are both set, then the
bearer Authorization header when Bearer is set, then the decoded custom
headers in order.  b64 stands for base64.StdEncoding used by
SetBasicAuth; custom is the decoded Headers JSON map. -/
def buildHeaders (b64 : String → String) (userAgent : String) (auth : AuthConfig)
    (custom : List (String × String)) : Headers :=
  let h0 : Headers := fun _ => none
  let h1 := hset h0 "User-Agent" userAgent
  let h2 := hset h1 "Accept" "application/vnd.docker.distribution.manifest.v2+json"
  let h3 := hset h2 "Connection" "keep-alive"
  let h4 := if auth.username ≠ "" ∧ auth.password ≠ "" then
      hset h3 "Authorization" ("Basic " ++ b64 (auth.username ++ ":" ++ auth.password))
    else h3
  let h5 := if auth.bearer ≠ "" then hset h4 "Authorization" ("Bearer " ++ auth.bearer) else h4
  custom.foldl (fun h kv => hset h kv.1 kv.2) h5

/-! ## registry.go: ListRepositories and its Link-header pagination -/

/-- One catalog page as served by the registry: the decoded repositories
array plus the raw Link response header (empty string when absent). -/
structure Page where
  repositories : List String
  linkHeader : String
deriving DecidableEq

/-- Embeds the Link-header parsing of ListRepositories
(registry.go:69-85): split on ";", require at least two parts whose
second contains the text rel="next", trim angle brackets and spaces from
the first part, and absolutize a relative URL against url:port.  Returns
the next URL to fetch, or the empty string when pagination stops. -/
def nextLink (url : String) (port : Nat) (link : String) : String :=
  if link = "" then ""
  else
    match goSplitSemi link with
    | p0 :: p1 :: _ =>
        if goContains p1 "rel=\"next\"" then
          let linkURL := goTrimCutset p0 ['<', '>', ' ']
          if linkURL = "" then ""
          else if goStartsWith linkURL "http" then linkURL
          else url ++ ":" ++ toString port ++ linkURL
        else ""
    | _ => ""

/-- The initial catalog URL built by ListRepositories (registry.go:52),
with its pageSize constant of 100. -/
def catalogURL (url : String) (port : Nat) : String :=
  url ++ ":" ++ toString port ++ "/v2/_catalog?n=100"

/-- Embeds the pagination loop of ListRepositories (registry.go:54-87).
The fetch oracle gives, for a URL, the decoded page served there (none
models a failed request or a catalog that fails to decode, both of which
the code turns into an error return).  The fuel bounds the number of
iterations; every run considered below supplies enough fuel for its
page chain, so the fuel case is never reached there. -/
def listReposLoop (fetch : String → Option Page) (url : String) (port : Nat) :
    Nat → String → List String → Except String (List String)
  | 0, _, acc => .ok acc
  | fuel + 1, nextURL, acc =>
      if nextURL = "" then .ok acc
      else
        match fetch nextURL with
        | none => .error "failed to fetch catalog"
        | some page =>
            listReposLoop fetch url port fuel (nextLink url port page.linkHeader)
              (acc ++ page.repositories)

/-- Embeds ListRepositories (registry.go:49-93): run the pagination loop
from the initial catalog URL, then reject an empty aggregate list. -/
def ListRepositories (fetch : String → Option Page) (url : String) (port : Nat)
    (fuel : Nat) : Except String (List String) :=
  match listReposLoop fetch url port fuel (catalogURL url port) [] with
  | .error e => .error e
  | .ok all => if all = [] then .error "no repositories found" else .ok all

/-- A finite chain of catalog pages as recognized by the code's own Link
parsing: fetching u yields the first page, whose parsed next link leads
to the rest, and the last page's Link header yields no next URL. -/
inductive Chain (fetch : String → Option Page) (url : String) (port : Nat) :
    String → List Page → Prop where
  | last (u : String) (p : Page) : fetch u = some p →
      nextLink url port p.linkHeader = "" → Chain fetch url port u [p]
  | cons (u : String) (p : Page) (ps : List Page) : fetch u = some p →
      nextLink url port p.linkHeader ≠ "" →
      Chain fetch url port (nextLink url port p.linkHeader) ps →
      Chain fetch url port u (p :: ps)

/-! ## registry.go: DumpAllRepositories -/

/-- Embeds the per-repository loop body of DumpAllRepositories
(registry.go:104-114): each DumpRepository error is only printed, and the
printed lines are collected here as a log. -/
def dumpAllLoop (dump : String → Except String Unit) : List String → List String
  | [] => []
  | r :: rs =>
      (match dump r with
       | .error e => ["Error dumping " ++ r ++ ": " ++ e]
       | .ok _ => []) ++ dumpAllLoop dump rs

/-- Embeds DumpAllRepositories (registry.go:95-118): list repositories,
propagating a listing error; otherwise dump each repository, logging but
never propagating per-repository errors, and return ok. -/
def DumpAllRepositories (fetch : String → Option Page) (url : String) (port : Nat)
    (fuel : Nat) (dump : String → Except String Unit) : Except String Unit × List String :=
  match ListRepositories fetch url port fuel with
  | .error e => (.error e, [])
  | .ok repos => (.ok (), dumpAllLoop dump repos)

/-! ## registry.go: progressReader -/

/-- State of the registry progressReader (registry.go:22): the total from
the Content-Length header (-1 when absent), the bytes read so far, and
the read count at the last reported update. -/
structure PRState where
  total : Int
  read : Int
  lastUpdate : Int
deriving DecidableEq, Repr

/-- The update threshold of progressReader.Read (registry.go:36-39):
total/10, raised to 100*1024 when smaller. -/
def prThreshold (total : Int) : Int :=
  let t := total / 10
  if t < 100 * 1024 then 100 * 1024 else t

/-- Embeds one progressReader.Read call (registry.go:31-47) on a chunk of
n bytes whose underlying read returned err = io.EOF when isEOF.  The
returned Bool records whether a progress line was printed. -/
def prRead (st : PRState) (n : Int) (isEOF : Bool) : PRState × Bool :=
  let rd := st.read + n
  if st.total > 0 then
    if rd - st.lastUpdate ≥ prThreshold st.total ∨ isEOF = true then
      (⟨st.total, rd, rd⟩, true)
    else (⟨st.total, rd, st.lastUpdate⟩, false)
  else (⟨st.total, rd, st.lastUpdate⟩, false)

/-- Runs progressReader.Read over a sequence of chunks, counting the
progress lines printed. -/
def prRun (st : PRState) : List (Int × Bool) → PRState × Nat
  | [] => (st, 0)
  | c :: cs =>
      let s := prRead st c.1 c.2
      let r := prRun s.1 cs
      (r.1, (if s.2 then 1 else 0) + r.2)

/-- Number of chunks in a read sequence on which the underlying reader
reported io.EOF. -/
def eofCount (cs : List (Int × Bool)) : Nat :=
  cs.countP fun c => c.2

/-! ## registry.go: getAndStoreBlob -/

/-- The filesystem as a map from path to file bytes (bytes as Nat). -/
def FS := String → Option (List Nat)

/-- Writing a file. -/
def fsWrite (fs : FS) (name : String) (bytes : List Nat) : FS :=
  fun k => if k = name then some bytes else fs k

/-- Removing a file (os.Remove; removing an absent file changes
nothing in this model, matching the ignored error of the deferred
os.Remove). -/
def fsRemove (fs : FS) (name : String) : FS :=
  fun k => if k = name then none else fs k

/-- What the blob request and body stream produced: the request itself
failed (MakeRequest error), the stream died mid-copy after some bytes
were already written to the temp file, or the full body arrived. -/
inductive BlobResp where
  | reqError (e : String)
  | streamError (pbytes : List Nat) (e : String)
  | complete (bytes : List Nat)

/-- Embeds getAndStoreBlob (registry.go:258-308).  hashHex stands for
hex.EncodeToString of the sha256 state; renameOk tells whether the
os.Rename syscall succeeds.  The temp file is written while streaming,
the digest "sha256:" ++ hashHex bytes is compared exactly against
expectedDigest, and only on a match is the temp file renamed to
filename; the deferred os.Remove(tmpName) runs on every path. -/
def getAndStoreBlob (hashHex : List Nat → String) (resp : BlobResp) (renameOk : Bool)
    (expectedDigest filename tmpName : String) (fs : FS) : Except String Unit × FS :=
  match resp with
  | .reqError e => (.error e, fs)
  | .streamError pbytes e =>
      (.error ("failed to read blob: " ++ e), fsRemove (fsWrite fs tmpName pbytes) tmpName)
  | .complete bytes =>
      let fs1 := fsWrite fs tmpName bytes
      let calculatedDigest := "sha256:" ++ hashHex bytes
      if calculatedDigest = expectedDigest then
        if renameOk then
          (.ok (), fsRemove (fsWrite (fsRemove fs1 tmpName) filename bytes) tmpName)
        else
          (.error ("failed to move temp file to " ++ filename), fsRemove fs1 tmpName)
      else
        (.error ("integrity check failed: expected " ++ expectedDigest ++ ", got "
           ++ calculatedDigest), fsRemove fs1 tmpName)

/-! ## registry.go: DumpRepository -/

/-- A blob descriptor of the parsed manifest (digest and mediaType). -/
structure Descriptor where
  digest : String
  mediaType : String

/-- The fields of the manifest that DumpRepository reads
(registry.go:157-166). -/
structure ManifestT where
  config : Descriptor
  layers : List Descriptor

/-- Embeds DumpRepository (registry.go:120-209) over oracles for its
effectful steps: utils.CreateDir on the output directory, the tags fetch
plus JSON decode (collapsed into one Except, both failure modes produce
an error return), getAndStoreResponse for the manifest of the selected
tag, json.Unmarshal of the manifest body, and getAndStoreBlob per blob
digest.  Blob errors are only printed; the printed error lines are
returned as a log next to the result. -/
def DumpRepository (createDirR : Except String Unit)
    (tagsR : Except String (List String))
    (manifestR : String → Except String String)
    (parseR : String → Except String ManifestT)
    (blobR : String → Except String Unit) : Except String Unit × List String :=
  match createDirR with
  | .error e => (.error ("failed to create output directory: " ++ e), [])
  | .ok _ =>
  match tagsR with
  | .error e => (.error ("failed to fetch tags: " ++ e), [])
  | .ok tags =>
  match tags with
  | [] => (.error "no tags found", [])
  | tag :: _ =>
  match manifestR tag with
  | .error e => (.error ("failed to fetch manifest: " ++ e), [])
  | .ok body =>
  match parseR body with
  | .error e => (.error ("failed to parse manifest: " ++ e), [])
  | .ok manifest =>
      let configLog :=
        if manifest.config.digest ≠ "" then
          match blobR manifest.config.digest with
          | .error e => ["Error downloading config " ++ manifest.config.digest ++ ": " ++ e]
          | .ok _ => []
        else []
      let layerLog := manifest.layers.foldl (fun acc layer =>
        acc ++
          (if layer.digest ≠ "" then
            match blobR layer.digest with
            | .error e => ["Error downloading layer " ++ layer.digest ++ ": " ++ e]
            | .ok _ => []
          else [])) []
      (.ok (), configLog ++ layerLog)

/-! ## main.go: connectSOCKS5 handshake (one connection attempt) -/

/-- Model of io.ReadFull into an n-byte buffer from a stream that has the
given bytes available: fails when fewer than n bytes arrive. -/
def readFull (n : Nat) (stream : List Nat) : Option (List Nat) :=
  if stream.length < n then none else some (stream.take n)

/-- The method-selection list built by connectSOCKS5 (main.go:66-69):
no-auth always, plus username/password when both credentials are set. -/
def socks5AuthMethods (user pass : String) : List Nat :=
  [0] ++ (if user ≠ "" ∧ pass ≠ "" then [2] else [])

/-- The version/method-selection message (main.go:70):
0x05, method count, then the methods. -/
def socks5Greeting (user pass : String) : List Nat :=
  [5, (socks5AuthMethods user pass).length] ++ socks5AuthMethods user pass

/-- The CONNECT request built by connectSOCKS5 (main.go:130-133):
version 5, command CONNECT, reserved 0, address type 0x03 (domain name),
host length byte, the host bytes, and the big-endian port (byte()
truncation modelled by mod 256). -/
def socks5ConnectReq (host : String) (portNum : Nat) : List Nat :=
  [5, 1, 0, 3, host.length % 256] ++ host.toList.map Char.toNat
    ++ [portNum / 256 % 256, portNum % 256]

/-- Everything one handshake attempt produced: the greeting sent, the
credential sub-negotiation message if any, the CONNECT request if the
attempt got that far, and its outcome. -/
structure Socks5Result where
  greeting : List Nat
  authMsg : Option (List Nat)
  connectReq : Option (List Nat)
  outcome : Except String Unit

/-- The CONNECT phase of the handshake (main.go:143-152): read the
10-byte reply in full; a short read or a non-zero status byte
(reply[1]) fails the handshake. -/
def socks5Connect (greeting : List Nat) (authMsg : Option (List Nat)) (host : String)
    (portNum : Nat) (connectReply : List Nat) : Socks5Result :=
  let req := socks5ConnectReq host portNum
  match readFull 10 connectReply with
  | none => ⟨greeting, authMsg, some req, .error "SOCKS5 connect request failed"⟩
  | some resp =>
      if resp.getD 1 0 ≠ 0 then
        ⟨greeting, authMsg, some req, .error "SOCKS5 connect request failed"⟩
      else ⟨greeting, authMsg, some req, .ok ()⟩

/-- Embeds one attempt of the connectSOCKS5 handshake (main.go:62-156):
send the greeting, read the 2-byte method selection (reply byte 0 must
be 0x05), run the username/password sub-negotiation when method 0x02 was
selected, reject any selected method other than 0x00 or 0x02, then issue
the CONNECT request and validate its 10-byte reply.  The three reply
parameters are the bytes the proxy answers with at each read. -/
def socks5Handshake (user pass host : String) (portNum : Nat)
    (methodReply authReply connectReply : List Nat) : Socks5Result :=
  let greeting := socks5Greeting user pass
  match readFull 2 methodReply with
  | none => ⟨greeting, none, none, .error "SOCKS5 handshake failed (read auth response)"⟩
  | some resp =>
      if resp.getD 0 0 ≠ 5 then
        ⟨greeting, none, none, .error "SOCKS5 handshake failed (read auth response)"⟩
      else if resp.getD 1 0 = 2 then
        let authReq := [1, user.length % 256] ++ user.toList.map Char.toNat
          ++ [pass.length % 256] ++ pass.toList.map Char.toNat
        match readFull 2 authReply with
        | none => ⟨greeting, some authReq, none, .error "SOCKS5 authentication failed"⟩
        | some aresp =>
            if aresp.getD 1 0 ≠ 0 then
              ⟨greeting, some authReq, none, .error "SOCKS5 authentication failed"⟩
            else socks5Connect greeting (some authReq) host portNum connectReply
      else if resp.getD 1 0 ≠ 0 then
        ⟨greeting, none, none, .error "SOCKS5 no acceptable auth methods"⟩
      else socks5Connect greeting none host portNum connectReply

/-! ## registry.go: the concurrency discipline of DumpAllRepositories

The fan-out of DumpAllRepositories (registry.go:101-117) is modelled as a
transition system.  The main goroutine, per repository, does wg.Add(1),
acquires the buffered semaphore channel of capacity 5, and spawns a
worker; a finishing worker releases its semaphore slot and then calls
wg.Done; the function returns only once wg.Wait observes a zero counter.
States count repositories not yet picked up (pending), slots acquired but
whose worker has not started yet (staged, at most one since the main
goroutine is sequential), running workers, workers that released their
slot but have not yet hit wg.Done (retiring), semaphore slots held
(held), the WaitGroup counter (wg), and whether the call returned. -/

structure DumpSt where
  pending : Nat
  staged : Nat
  running : Nat
  retiring : Nat
  held : Nat
  wg : Nat
  returned : Bool
deriving DecidableEq, Repr

/-- The initial state of DumpAllRepositories over n repositories. -/
def dumpInit (n : Nat) : DumpSt := ⟨n, 0, 0, 0, 0, 0, false⟩

/-- One transition of the DumpAllRepositories fan-out. -/
inductive DumpStep : DumpSt → DumpSt → Prop where
  | acquire (s : DumpSt) : s.returned = false → 0 < s.pending → s.staged = 0 →
      s.held < 5 →
      DumpStep s ⟨s.pending - 1, 1, s.running, s.retiring, s.held + 1, s.wg + 1, false⟩
  | spawn (s : DumpSt) : 0 < s.staged →
      DumpStep s ⟨s.pending, s.staged - 1, s.running + 1, s.retiring, s.held, s.wg, s.returned⟩
  | release (s : DumpSt) : 0 < s.running →
      DumpStep s ⟨s.pending, s.staged, s.running - 1, s.retiring + 1, s.held - 1, s.wg, s.returned⟩
  | done (s : DumpSt) : 0 < s.retiring →
      DumpStep s ⟨s.pending, s.staged, s.running, s.retiring - 1, s.held, s.wg - 1, s.returned⟩
  | ret (s : DumpSt) : s.returned = false → s.pending = 0 → s.staged = 0 → s.wg = 0 →
      DumpStep s ⟨0, 0, s.running, s.retiring, s.held, 0, true⟩

/-- Reachability of the fan-out transition system. -/
def DumpReach (a b : DumpSt) : Prop := Relation.ReflTransGen DumpStep a b

/-! ## Lemmas about the MakeRequest retry loop -/

/-- One unfolding of the retry loop trace: a retryable transient error
below the attempt cap prepends a request and a backoff sleep, every
other outcome ends the loop with just that attempt's request. -/
lemma mrLoop_snd (oracle : Nat → Outcome) (fuel attempt : Nat) :
    (mrLoop oracle (fuel + 1) attempt).2 =
      if transientRetryable (oracle attempt) = true ∧ attempt < maxRetries then
        Ev.req attempt :: Ev.sleep (2 ^ (attempt - 1)) :: (mrLoop oracle fuel (attempt + 1)).2
      else [Ev.req attempt] := by
  rcases ho : oracle attempt with ⟨ne, tmo, msg⟩ | ⟨st, wa⟩ <;>
    simp only [mrLoop, ho, transientRetryable]
  · have hiff : (ne && (tmo || isConnectionClosedError msg)
        && decide (attempt < maxRetries)) = true ↔
        ((ne && (tmo || isConnectionClosedError msg)) = true ∧ attempt < maxRetries) := by
      simp [Bool.and_eq_true, decide_eq_true_eq]
    by_cases hcond : (ne && (tmo || isConnectionClosedError msg)) = true ∧ attempt < maxRetries
    · rw [if_pos (hiff.mpr hcond), if_pos hcond]
    · rw [if_neg (fun hh => hcond (hiff.mp hh)), if_neg hcond]
  · have hr : ¬ (false = true ∧ attempt < maxRetries) := by simp
    rw [if_neg hr]
    split
    · rfl
    · split <;> rfl

/-- The full event trace of MakeRequest, by the classification of the
first two attempt outcomes. -/
lemma makeRequest_trace (oracle : Nat → Outcome) :
    (MakeRequest oracle).2 =
      if transientRetryable (oracle 1) = true then
        if transientRetryable (oracle 2) = true then
          [Ev.tok, Ev.req 1, Ev.sleep 1, Ev.req 2, Ev.sleep 2, Ev.req 3]
        else [Ev.tok, Ev.req 1, Ev.sleep 1, Ev.req 2]
      else [Ev.tok, Ev.req 1] := by
  have e1 := mrLoop_snd oracle 2 1
  have e2 := mrLoop_snd oracle 1 2
  have e3 := mrLoop_snd oracle 0 3
  have hm : (MakeRequest oracle).2 = Ev.tok :: (mrLoop oracle 3 1).2 := rfl
  by_cases t1 : transientRetryable (oracle 1) = true
  · by_cases t2 : transientRetryable (oracle 2) = true
    · rw [if_pos (by exact ⟨t1, by norm_num [maxRetries]⟩)] at e1
      rw [if_pos (by exact ⟨t2, by norm_num [maxRetries]⟩)] at e2
      rw [if_neg (by simp [maxRetries])] at e3
      rw [hm]
      show Ev.tok :: (mrLoop oracle (2 + 1) 1).2 = _
      rw [e1, e2, e3, if_pos t1, if_pos t2]
      norm_num
    · rw [if_pos (by exact ⟨t1, by norm_num [maxRetries]⟩)] at e1
      rw [if_neg (by simp [t2])] at e2
      rw [hm]
      show Ev.tok :: (mrLoop oracle (2 + 1) 1).2 = _
      rw [e1, e2, if_pos t1, if_neg t2]
      norm_num
  · rw [if_neg (by simp [t1])] at e1
    rw [hm]
    show Ev.tok :: (mrLoop oracle (2 + 1) 1).2 = _
    rw [e1, if_neg t1]

/-- Claim C4: MakeRequest retries only on transport-level errors
classified as transient (timeout, connection reset, broken pipe, use of
closed connection — a net.Error whose Timeout holds or whose message
matches isConnectionClosedError), makes at least one and at most 3
attempts, sleeps exponential backoffs of 1s then 2s between attempts,
and every attempt whose outcome is not such a transient error — a
non-transient transport error or any non-200 HTTP status — is terminal:
no later attempt follows it. -/
theorem makeRequest_retry_policy (oracle : Nat → Outcome) :
    1 ≤ countReq (MakeRequest oracle).2 ∧
    countReq (MakeRequest oracle).2 ≤ 3 ∧
    sleeps (MakeRequest oracle).2 = List.take (countReq (MakeRequest oracle).2 - 1) [1, 2] ∧
    ∀ i, 1 ≤ i → i < countReq (MakeRequest oracle).2 →
      transientRetryable (oracle i) = true := by
  rw [makeRequest_trace oracle]
  by_cases t1 : transientRetryable (oracle 1) = true
  · by_cases t2 : transientRetryable (oracle 2) = true
    · rw [if_pos t1, if_pos t2]
      refine ⟨by simp [countReq], by simp [countReq], by simp [sleeps, countReq], ?_⟩
      intro i h1 h2
      simp [countReq] at h2
      interval_cases i
      · exact t1
      · exact t2
    · rw [if_pos t1, if_neg t2]
      refine ⟨by simp [countReq], by simp [countReq], by simp [sleeps, countReq], ?_⟩
      intro i h1 h2
      simp [countReq] at h2
      interval_cases i
      exact t1
  · rw [if_neg t1]
    refine ⟨by simp [countReq], by simp [countReq], by simp [sleeps, countReq], ?_⟩
    intro i h1 h2
    simp [countReq] at h2
    omega

/-- Witness for C4: with a first attempt that times out and a second that
returns 200, the trace shows two requests, one 1-second backoff, and a
transient first outcome. -/
def retryOracle : Nat → Outcome
  | 1 => .netError true true "i/o timeout"
  | _ => .response 200 ""

/-- Witness for claim C4 at the concrete oracle retryOracle. -/
theorem makeRequest_retry_policy_witness :
    countReq (MakeRequest retryOracle).2 ≤ 3 ∧
    transientRetryable (retryOracle 1) = true := by
  refine ⟨(makeRequest_retry_policy retryOracle).2.1, ?_⟩
  exact (makeRequest_retry_policy retryOracle).2.2.2 1 (by decide)
    (by rw [makeRequest_trace retryOracle]; decide)

/-- Counterexample to claim C6 as stated: when the first attempt fails
with a transient timeout and the second succeeds, MakeRequest issues two
HTTP requests but consumes a single rate-limiter token — so it is not
the case that every issued request (including retry attempts) consumed
one token. -/
theorem makeRequest_token_cex :
    countReq (MakeRequest retryOracle).2 = 2 ∧
    countTok (MakeRequest retryOracle).2 = 1 ∧
    countReq (MakeRequest retryOracle).2 ≠ countTok (MakeRequest retryOracle).2 := by
  rw [makeRequest_trace retryOracle]
  decide

/-- Claim C6 (amended): exactly one rate-limiter token is consumed per
MakeRequest call, and it is consumed before any HTTP request of that
call is issued (the trace starts with the token event); retry attempts
within the same call do not consume further tokens. -/
theorem makeRequest_one_token_per_call (oracle : Nat → Outcome) :
    countTok (MakeRequest oracle).2 = 1 ∧
    (MakeRequest oracle).2.head? = some Ev.tok := by
  rw [makeRequest_trace oracle]
  by_cases t1 : transientRetryable (oracle 1) = true
  · by_cases t2 : transientRetryable (oracle 2) = true
    · rw [if_pos t1, if_pos t2]; exact ⟨by simp [countTok], rfl⟩
    · rw [if_pos t1, if_neg t2]; exact ⟨by simp [countTok], rfl⟩
  · rw [if_neg t1]; exact ⟨by simp [countTok], rfl⟩

/-- Counterexample to claim C5 as stated: with both basic credentials
and a bearer token supplied, the Authorization header that leaves
MakeRequest is the bearer one — the later req.Header.Set of the bearer
value overwrites the earlier SetBasicAuth — so basic auth is not the
one applied. -/
theorem buildHeaders_both_auth_cex :
    buildHeaders (fun s => s) "ua" ⟨"u", "p", "tok"⟩ [] "Authorization"
        = some "Bearer tok" ∧
    buildHeaders (fun s => s) "ua" ⟨"u", "p", "tok"⟩ [] "Authorization"
        ≠ some "Basic u:p" := by
  constructor
  · simp [buildHeaders, hset]
  · simp [buildHeaders, hset]

/-- Claim C5 (amended): MakeRequest applies basic auth first when both
username and password are set, then overwrites the Authorization header
with the bearer value whenever a bearer token is set — so with both
supplied the effective Authorization is the bearer header, with only
basic credentials it is the basic header, and with neither there is no
Authorization header; custom headers are applied afterwards with
last-write-wins semantics and may override any header, including
Authorization. -/
theorem buildHeaders_effective_auth (b64 : String → String) (ua u p b : String)
    (auth : AuthConfig) (custom : List (String × String)) (k v : String) :
    (u ≠ "" → p ≠ "" → b = "" →
      buildHeaders b64 ua ⟨u, p, b⟩ [] "Authorization"
        = some ("Basic " ++ b64 (u ++ ":" ++ p))) ∧
    (b ≠ "" →
      buildHeaders b64 ua ⟨u, p, b⟩ [] "Authorization" = some ("Bearer " ++ b)) ∧
    ((u = "" ∨ p = "") → b = "" →
      buildHeaders b64 ua ⟨u, p, b⟩ [] "Authorization" = none) ∧
    buildHeaders b64 ua auth (custom ++ [(k, v)]) k = some v := by
  refine ⟨?_, ?_, ?_, ?_⟩
  · intro hu hp hb
    simp [buildHeaders, hset, hu, hp, hb]
  · intro hb
    simp only [buildHeaders, hset, List.foldl_nil]
    rw [if_pos hb]
    simp [hset]
  · intro hup hb
    have : ¬ (u ≠ "" ∧ p ≠ "") := by
      rcases hup with h | h <;> simp [h]
    simp [buildHeaders, hset, this, hb]
  · rw [buildHeaders, List.foldl_append]
    simp [hset]

/-- Witness for claim C5 (amended) at concrete inputs: with only basic
credentials the header is Basic, with a bearer token it is Bearer, and a
custom Authorization header overrides it. -/
theorem buildHeaders_effective_auth_witness :
    buildHeaders (fun s => s) "ua" ⟨"u", "p", ""⟩ [] "Authorization" = some "Basic u:p" ∧
    buildHeaders (fun s => s) "ua" ⟨"", "", "tok"⟩ [] "Authorization" = some "Bearer tok" ∧
    buildHeaders (fun s => s) "ua" ⟨"u", "p", "tok"⟩
        ([] ++ [("Authorization", "custom")]) "Authorization" = some "custom" := by
  refine ⟨?_, ?_, ?_⟩
  · exact (buildHeaders_effective_auth (fun s => s) "ua" "u" "p" ""
      ⟨"", "", ""⟩ [] "x" "y").1 (by decide) (by decide) rfl
  · exact (buildHeaders_effective_auth (fun s => s) "ua" "" "" "tok"
      ⟨"", "", ""⟩ [] "x" "y").2.1 (by decide)
  · exact (buildHeaders_effective_auth (fun s => s) "ua" "" "" ""
      ⟨"u", "p", "tok"⟩ [] "Authorization" "custom").2.2.2

/-! ## Claim C3: catalog pagination -/

/-- The pagination loop stops as soon as the next URL is empty. -/
lemma listReposLoop_empty_url (fetch : String → Option Page) (url : String)
    (port : Nat) (fuel : Nat) (acc : List String) :
    listReposLoop fetch url port fuel "" acc = .ok acc := by
  cases fuel <;> simp [listReposLoop]

/-- The initial catalog URL is never the empty string. -/
lemma catalogURL_ne_empty (url : String) (port : Nat) : catalogURL url port ≠ "" := by
  intro h
  have hlen := congrArg String.length h
  simp only [catalogURL, String.length_append] at hlen
  have h1 : String.length ":" = 1 := by decide
  have h2 : String.length "/v2/_catalog?n=100" = 18 := by decide
  have h3 : String.length "" = 0 := by decide
  omega

/-- Following a chain of pages linked by parsed next links, the loop
accumulates exactly the concatenation of the repositories of the pages,
in page order. -/
lemma chain_loop (fetch : String → Option Page) (url : String) (port : Nat)
    {u : String} {ps : List Page} (hc : Chain fetch url port u ps) :
    ∀ fuel, ps.length ≤ fuel → u ≠ "" → ∀ acc,
      listReposLoop fetch url port fuel u acc =
        .ok (acc ++ (ps.map Page.repositories).flatten) := by
  induction hc with
  | last v page hf hn =>
      intro fuel hfuel hne acc
      obtain ⟨f, rfl⟩ : ∃ f, fuel = f + 1 := ⟨fuel - 1, by simp at hfuel; omega⟩
      simp only [listReposLoop]
      rw [if_neg hne, hf]
      simp only [hn, listReposLoop_empty_url]
      simp
  | cons v page ps hf hn hchain ih =>
      intro fuel hfuel hne acc
      obtain ⟨f, rfl⟩ : ∃ f, fuel = f + 1 := ⟨fuel - 1, by simp at hfuel; omega⟩
      simp only [listReposLoop]
      rw [if_neg hne, hf]
      simp only []
      rw [ih f (by simp at hfuel; omega) hn (acc ++ page.repositories)]
      simp

/-- Claim C3: for every sequence of catalog pages linked by Link headers
with a rel next link as parsed by the client, ListRepositories returns
the concatenation of the repositories arrays of all pages in page order
(no duplicates and no reordering introduced), stopping at the page whose
parsed link yields no next URL; when the aggregate is empty it returns
the no-repositories-found error instead of an empty success. -/
theorem listRepositories_pagination (fetch : String → Option Page) (url : String)
    (port : Nat) (ps : List Page) (fuel : Nat)
    (hchain : Chain fetch url port (catalogURL url port) ps)
    (hfuel : ps.length ≤ fuel) :
    ListRepositories fetch url port fuel =
      if (ps.map Page.repositories).flatten = [] then .error "no repositories found"
      else .ok ((ps.map Page.repositories).flatten) := by
  unfold ListRepositories
  rw [chain_loop fetch url port hchain fuel hfuel (catalogURL_ne_empty url port) []]
  simp

/-- A two-page registry used as the concrete witness for C3: the first
page links to the second with an RFC5988 Link header carrying a relative
URL; the second page has no Link header. -/
def demoFetch : String → Option Page := fun u =>
  if u = "http://r:5000/v2/_catalog?n=100" then
    some ⟨["a", "b"], "</v2/_catalog?last=b&n=100>; rel=\"next\""⟩
  else if u = "http://r:5000/v2/_catalog?last=b&n=100" then
    some ⟨["c"], ""⟩
  else none

/-- Witness for claim C3 at the concrete two-page registry demoFetch:
the aggregate is the page-ordered concatenation. -/
theorem listRepositories_pagination_witness :
    ListRepositories demoFetch "http://r" 5000 2 = .ok ["a", "b", "c"] := by
  have hc : Chain demoFetch "http://r" 5000 (catalogURL "http://r" 5000)
      [⟨["a", "b"], "</v2/_catalog?last=b&n=100>; rel=\"next\""⟩, ⟨["c"], ""⟩] := by
    apply Chain.cons _ _ _ (by decide) (by decide)
    apply Chain.last _ _ (by decide) (by decide)
  rw [listRepositories_pagination demoFetch "http://r" 5000 _ 2 hc (by decide)]
  rfl

/-! ## Claim C2: failure isolation of DumpAllRepositories -/

/-- Every failing repository of the batch leaves its error in the log
that DumpAllRepositories prints. -/
lemma dumpAllLoop_mem (dump : String → Except String Unit) (repos : List String)
    (r : String) (e : String) (hr : r ∈ repos) (he : dump r = .error e) :
    ("Error dumping " ++ r ++ ": " ++ e) ∈ dumpAllLoop dump repos := by
  induction repos with
  | nil => cases hr
  | cons a rest ih =>
      rcases List.mem_cons.mp hr with rfl | hmem
      · simp [dumpAllLoop, he]
      · rcases h : dump a with e' | u <;> simp [dumpAllLoop, h, ih hmem]

/-- Claim C2: DumpAllRepositories returns an error exactly when
ListRepositories does; whenever the listing succeeds it returns ok even
though per-repository dump errors exist — those are only logged, and
each failing repository of the batch contributes its error line to the
log. -/
theorem dumpAll_failure_isolation (fetch : String → Option Page) (url : String)
    (port : Nat) (fuel : Nat) (dump : String → Except String Unit) :
    (∀ e, (DumpAllRepositories fetch url port fuel dump).1 = .error e ↔
      ListRepositories fetch url port fuel = .error e) ∧
    (∀ repos, ListRepositories fetch url port fuel = .ok repos →
      (DumpAllRepositories fetch url port fuel dump).1 = .ok () ∧
      ∀ r e, r ∈ repos → dump r = .error e →
        ("Error dumping " ++ r ++ ": " ++ e) ∈ (DumpAllRepositories fetch url port fuel dump).2) := by
  constructor
  · intro e
    unfold DumpAllRepositories
    cases h : ListRepositories fetch url port fuel <;> simp [h]
  · intro repos h
    unfold DumpAllRepositories
    rw [h]
    exact ⟨rfl, fun r e hr he => dumpAllLoop_mem dump repos r e hr he⟩

/-- A dump oracle that fails on every repository. -/
def failDump : String → Except String Unit := fun r => .error ("boom " ++ r)

/-- Witness for claim C2: over the two-page demo registry, with every
single repository dump failing, DumpAllRepositories still returns ok and
the first failure is logged. -/
theorem dumpAll_failure_isolation_witness :
    (DumpAllRepositories demoFetch "http://r" 5000 2 failDump).1 = .ok () ∧
    ("Error dumping " ++ "a" ++ ": " ++ "boom a")
      ∈ (DumpAllRepositories demoFetch "http://r" 5000 2 failDump).2 := by
  have h := (dumpAll_failure_isolation demoFetch "http://r" 5000 2 failDump).2
    ["a", "b", "c"] rfl
  exact ⟨h.1, h.2 "a" "boom a" (by decide) rfl⟩

/-! ## Claim C10: DumpRepository propagates only pre-blob failures -/

/-- Claim C10: whenever directory creation, the tag fetch/decode, the
manifest fetch and the manifest parse succeed and the tag list is
non-empty, DumpRepository returns ok — for every blob oracle, including
one failing every config and layer blob; and conversely an error return
can only come from directory creation, tag fetch/decode, an empty tag
list, manifest fetch, or manifest parse. -/
theorem dumpRepository_blob_isolation (createDirR : Except String Unit)
    (tagsR : Except String (List String)) (manifestR : String → Except String String)
    (parseR : String → Except String ManifestT) (blobR : String → Except String Unit) :
    (∀ t ts body m, createDirR = .ok () → tagsR = .ok (t :: ts) →
      manifestR t = .ok body → parseR body = .ok m →
      (DumpRepository createDirR tagsR manifestR parseR blobR).1 = .ok ()) ∧
    (∀ e, (DumpRepository createDirR tagsR manifestR parseR blobR).1 = .error e →
      (∃ e1, createDirR = .error e1) ∨ (∃ e2, tagsR = .error e2) ∨ tagsR = .ok [] ∨
      (∃ t ts e3, tagsR = .ok (t :: ts) ∧ manifestR t = .error e3) ∨
      (∃ t ts body e4, tagsR = .ok (t :: ts) ∧ manifestR t = .ok body ∧
        parseR body = .error e4)) := by
  constructor
  · intro t ts body m hc ht hm hp
    simp [DumpRepository, hc, ht, hm, hp]
  · intro e h
    rcases createDirR with e1 | u
    · exact Or.inl ⟨e1, rfl⟩
    cases u
    rcases tagsR with e2 | tags
    · exact Or.inr (Or.inl ⟨e2, rfl⟩)
    rcases tags with _ | ⟨t, ts⟩
    · exact Or.inr (Or.inr (Or.inl rfl))
    rcases hm : manifestR t with e3 | body
    · exact Or.inr (Or.inr (Or.inr (Or.inl ⟨t, ts, e3, rfl, hm⟩)))
    rcases hp : parseR body with e4 | m
    · exact Or.inr (Or.inr (Or.inr (Or.inr ⟨t, ts, body, e4, rfl, hm, hp⟩)))
    · exfalso
      simp [DumpRepository, hm, hp] at h

/-- Witness for claim C10: a repository with one tag, a parsed manifest
with a config digest and one layer digest, and a blob oracle failing
every download still yields an ok return. -/
theorem dumpRepository_blob_isolation_witness :
    (DumpRepository (.ok ()) (.ok ["latest"]) (fun _ => .ok "manifestbody")
      (fun _ => .ok ⟨⟨"sha256:c", "mt"⟩, [⟨"sha256:l1", "mt"⟩]⟩)
      (fun _ => .error "integrity check failed")).1 = .ok () := by
  exact (dumpRepository_blob_isolation (.ok ()) (.ok ["latest"])
      (fun _ => .ok "manifestbody")
      (fun _ => .ok ⟨⟨"sha256:c", "mt"⟩, [⟨"sha256:l1", "mt"⟩]⟩)
      (fun _ => .error "integrity check failed")).1
    "latest" [] "manifestbody" ⟨⟨"sha256:c", "mt"⟩, [⟨"sha256:l1", "mt"⟩]⟩
    rfl rfl rfl rfl

/-! ## Claim C1: getAndStoreBlob digest verification and atomic publish -/

/-- Claim C1: the digest computed over the streamed bytes, with the
sha256: prefix, is compared exactly against the expected digest string;
on a match (and a successful rename) the temp file is renamed to the
final artifact path, on a mismatch an error is returned, the temp file
is discarded, and the final path is untouched; more generally any
non-ok outcome leaves the final path exactly as it was, so a file that
appears under the canonical name can only be the complete stream whose
prefixed hash equals the expected digest. -/
theorem getAndStoreBlob_digest_gate (hashHex : List Nat → String) (resp : BlobResp)
    (renameOk : Bool) (expected filename tmpName : String) (fs : FS)
    (hne : tmpName ≠ filename) :
    (∀ bytes, resp = .complete bytes → renameOk = true →
      "sha256:" ++ hashHex bytes = expected →
      (getAndStoreBlob hashHex resp renameOk expected filename tmpName fs).1 = .ok () ∧
      (getAndStoreBlob hashHex resp renameOk expected filename tmpName fs).2 filename
        = some bytes) ∧
    (∀ bytes, resp = .complete bytes → "sha256:" ++ hashHex bytes ≠ expected →
      (∃ e, (getAndStoreBlob hashHex resp renameOk expected filename tmpName fs).1
        = .error e) ∧
      (getAndStoreBlob hashHex resp renameOk expected filename tmpName fs).2 filename
        = fs filename ∧
      (getAndStoreBlob hashHex resp renameOk expected filename tmpName fs).2 tmpName
        = none) ∧
    ((getAndStoreBlob hashHex resp renameOk expected filename tmpName fs).1 ≠ .ok () →
      (getAndStoreBlob hashHex resp renameOk expected filename tmpName fs).2 filename
        = fs filename) ∧
    (∀ bytes,
      (getAndStoreBlob hashHex resp renameOk expected filename tmpName fs).2 filename
        = some bytes →
      fs filename = some bytes ∨
      (resp = .complete bytes ∧ "sha256:" ++ hashHex bytes = expected)) := by
  have hne' : ¬ (filename = tmpName) := fun h => hne h.symm
  refine ⟨?_, ?_, ?_, ?_⟩
  · rintro bytes rfl rfl hdig
    simp [getAndStoreBlob, hdig, fsWrite, fsRemove, hne']
  · rintro bytes rfl hdig
    simp [getAndStoreBlob, hdig, fsWrite, fsRemove, hne']
  · intro hres
    rcases resp with e | ⟨pb, e⟩ | bytes
    · rfl
    · simp [getAndStoreBlob, fsWrite, fsRemove, hne']
    · by_cases hdig : "sha256:" ++ hashHex bytes = expected
      · rcases renameOk with _ | _
        · simp [getAndStoreBlob, hdig, fsWrite, fsRemove, hne']
        · exact absurd (by simp [getAndStoreBlob, hdig]) hres
      · simp [getAndStoreBlob, hdig, fsWrite, fsRemove, hne']
  · intro bytes hfile
    rcases resp with e | ⟨pb, e⟩ | bytes0
    · exact Or.inl hfile
    · simp [getAndStoreBlob, fsWrite, fsRemove, hne'] at hfile
      exact Or.inl hfile
    · by_cases hdig : "sha256:" ++ hashHex bytes0 = expected
      · rcases renameOk with _ | _
        · simp [getAndStoreBlob, hdig, fsWrite, fsRemove, hne'] at hfile
          exact Or.inl hfile
        · simp [getAndStoreBlob, hdig, fsWrite, fsRemove, hne'] at hfile
          exact Or.inr ⟨by rw [← hfile], by rw [← hfile]; exact hdig⟩
      · simp [getAndStoreBlob, hdig, fsWrite, fsRemove, hne'] at hfile
        exact Or.inl hfile

/-- Witness for claim C1 at concrete inputs: a completed stream whose
prefixed hash equals the expected digest is published under the final
name with exactly its bytes. -/
theorem getAndStoreBlob_digest_gate_witness :
    (getAndStoreBlob (fun _ => "ab") (.complete [1, 2]) true "sha256:ab" "f" "t"
      (fun _ => none)).1 = .ok () ∧
    (getAndStoreBlob (fun _ => "ab") (.complete [1, 2]) true "sha256:ab" "f" "t"
      (fun _ => none)).2 "f" = some [1, 2] := by
  exact (getAndStoreBlob_digest_gate (fun _ => "ab") (.complete [1, 2]) true
    "sha256:ab" "f" "t" (fun _ => none) (by decide)).1 [1, 2] rfl rfl (by decide)

/-! ## Claim C8: progressReader reporting -/

/-- The progress threshold is at least 100 KiB. -/
lemma prThreshold_ge (total : Int) : 102400 ≤ prThreshold total := by
  have h : prThreshold total
      = if total / 10 < 100 * 1024 then 100 * 1024 else total / 10 := rfl
  rw [h]
  split <;> omega

/-- With no usable total, a single Read prints nothing, whatever was
read and even at EOF. -/
lemma prRead_silent (st : PRState) (n : Int) (eof : Bool) (h : st.total ≤ 0) :
    prRead st n eof = (⟨st.total, st.read + n, st.lastUpdate⟩, false) := by
  simp only [prRead]
  rw [if_neg (by omega)]

/-- With no usable total, a whole sequence of Reads prints nothing. -/
lemma prRun_silent (st : PRState) (cs : List (Int × Bool)) (h : st.total ≤ 0) :
    (prRun st cs).2 = 0 := by
  induction cs generalizing st with
  | nil => rfl
  | cons c rest ih =>
      simp only [prRun, prRead_silent st c.1 c.2 h]
      simpa using ih ⟨st.total, st.read + c.1, st.lastUpdate⟩ h

/-- With a known total, the number of progress lines printed over any
sequence of reads of nonnegative sizes is bounded by the bytes read
divided by the threshold, plus one line per EOF-reporting read: the
cadence is bounded. -/
lemma prRun_cadence (cs : List (Int × Bool)) (st : PRState)
    (hT : 0 < st.total) (hlu : st.lastUpdate ≤ st.read)
    (hn : ∀ c ∈ cs, 0 ≤ c.1) :
    prThreshold st.total * ((prRun st cs).2 : Int) ≤
      ((prRun st cs).1.read - st.lastUpdate) +
        prThreshold st.total * (eofCount cs : Int) := by
  induction cs generalizing st with
  | nil =>
      simp only [prRun, eofCount, List.countP_nil]
      push_cast
      have := prThreshold_ge st.total
      nlinarith
  | cons c rest ih =>
      have hc1 : 0 ≤ c.1 := hn c (List.mem_cons_self c rest)
      have hrest : ∀ x ∈ rest, 0 ≤ x.1 := fun x hx => hn x (List.mem_cons_of_mem c hx)
      have hth := prThreshold_ge st.total
      by_cases hcond : st.read + c.1 - st.lastUpdate ≥ prThreshold st.total ∨ c.2 = true
      · have hr : prRead st c.1 c.2 = (⟨st.total, st.read + c.1, st.read + c.1⟩, true) := by
          simp only [prRead]
          rw [if_pos hT, if_pos hcond]
        have ihs := ih ⟨st.total, st.read + c.1, st.read + c.1⟩ hT le_rfl hrest
        simp only [prRun, hr]
        simp only [eofCount, List.countP_cons] at ihs ⊢
        rcases hcond with hbyte | heof
        · push_cast at ihs ⊢
          cases hc2 : c.2 with
          | false =>
              simp only [hc2, if_neg Bool.false_ne_true] at *
              nlinarith [ihs]
          | true =>
              simp only [hc2, if_pos rfl] at *
              push_cast
              nlinarith [ihs]
        · simp only [heof, if_pos rfl]
          push_cast at ihs ⊢
          nlinarith [ihs]
      · have hc2 : c.2 = false := by
          cases hb : c.2
          · rfl
          · exact absurd (Or.inr hb) hcond
        have hr : prRead st c.1 c.2 = (⟨st.total, st.read + c.1, st.lastUpdate⟩, false) := by
          simp only [prRead]
          rw [if_pos hT, if_neg hcond]
        have ihs := ih ⟨st.total, st.read + c.1, st.lastUpdate⟩ hT
          (by show st.lastUpdate ≤ st.read + c.1; omega) hrest
        simp only [prRun, hr]
        simp only [eofCount, List.countP_cons, hc2, if_neg Bool.false_ne_true] at ihs ⊢
        push_cast at ihs ⊢
        nlinarith [ihs]

/-- Counterexample to claim C8 as stated: when the Content-Length header
is absent, getAndStoreBlob sets the progressReader total to -1, and then
even a read of 1024 bytes that ends the stream (EOF) prints nothing —
reporting does not degrade to byte-count-only updates, it is suppressed
entirely. -/
theorem progressReader_no_byte_report_cex :
    (prRead ⟨-1, 0, 0⟩ 1024 true).2 = false ∧
    (prRun ⟨-1, 0, 0⟩ [(1024, false), (2048, true)]).2 = 0 := by
  constructor
  · rfl
  · rfl

/-- Claim C8 (amended): when Content-Length is present (positive total),
every EOF read prints an update and the total number of updates over any
read sequence is bounded by bytes-read divided by the at-least-100KiB
threshold plus the EOF updates — a bounded cadence; when Content-Length
is absent (total set to -1, or any nonpositive total), no progress
update is printed at all: reporting is suppressed, not degraded to
byte counts. -/
theorem progressReader_reporting (st : PRState) (cs : List (Int × Bool)) (n : Int) :
    (st.total ≤ 0 → (prRun st cs).2 = 0) ∧
    (0 < st.total → (prRead st n true).2 = true) ∧
    (0 < st.total → st.lastUpdate ≤ st.read → (∀ c ∈ cs, 0 ≤ c.1) →
      prThreshold st.total * ((prRun st cs).2 : Int) ≤
        ((prRun st cs).1.read - st.lastUpdate) +
          prThreshold st.total * (eofCount cs : Int)) := by
  refine ⟨fun h => prRun_silent st cs h, fun hT => ?_, fun hT hlu hn => prRun_cadence cs st hT hlu hn⟩
  simp only [prRead]
  rw [if_pos hT]
  simp

/-- Witness for claim C8 (amended) at concrete inputs: a 1 MiB download
with known total of 1 MiB prints at EOF, and the suppressed case prints
zero lines. -/
theorem progressReader_reporting_witness :
    (prRun (⟨-1, 0, 0⟩ : PRState) [(1024, true)]).2 = 0 ∧
    (prRead (⟨1048576, 0, 0⟩ : PRState) 1048576 true).2 = true := by
  exact ⟨(progressReader_reporting ⟨-1, 0, 0⟩ [(1024, true)] 0).1 (by decide),
    (progressReader_reporting ⟨1048576, 0, 0⟩ [] 1048576).2.1 (by decide)⟩

/-! ## Claim C7: the SOCKS5 handshake -/

/-- Every path through the CONNECT phase sends the same CONNECT request. -/
lemma socks5Connect_sends_req (g : List Nat) (a : Option (List Nat)) (host : String)
    (portNum : Nat) (reply : List Nat) :
    (socks5Connect g a host portNum reply).connectReq = some (socks5ConnectReq host portNum) := by
  unfold socks5Connect readFull
  split
  · rfl
  · dsimp only
    split <;> rfl

/-- A CONNECT phase that succeeds read the full 10-byte reply and saw a
zero status byte. -/
lemma socks5Connect_ok (g : List Nat) (a : Option (List Nat)) (host : String)
    (portNum : Nat) (reply : List Nat)
    (h : (socks5Connect g a host portNum reply).outcome = .ok ()) :
    10 ≤ reply.length ∧ (reply.take 10).getD 1 0 = 0 := by
  unfold socks5Connect readFull at h
  by_cases hlen : reply.length < 10
  · rw [if_pos hlen] at h
    simp at h
  · rw [if_neg hlen] at h
    dsimp only at h
    by_cases hst : (reply.take 10).getD 1 0 ≠ 0
    · rw [if_pos hst] at h
      simp at h
    · exact ⟨by omega, by omega⟩

/-- Claim C7: the method-selection message offers exactly no-auth when a
proxy credential is missing and no-auth plus username/password when both
are supplied; a selected method other than 0x00 or 0x02 makes the
handshake fail; whenever a CONNECT request is sent it is the
domain-name-addressed one (address type byte 0x03, host and port of the
registry endpoint); and a successful handshake implies the 10-byte
connect reply was read in full with a zero status byte. -/
theorem socks5_handshake_protocol (user pass host : String) (portNum : Nat)
    (methodReply authReply connectReply : List Nat) :
    ((user = "" ∨ pass = "") → socks5Greeting user pass = [5, 1, 0]) ∧
    (user ≠ "" → pass ≠ "" → socks5Greeting user pass = [5, 2, 0, 2]) ∧
    (∀ m, 2 ≤ methodReply.length → (methodReply.take 2).getD 0 0 = 5 →
      (methodReply.take 2).getD 1 0 = m → m ≠ 0 → m ≠ 2 →
      ∃ e, (socks5Handshake user pass host portNum methodReply authReply
        connectReply).outcome = .error e) ∧
    (∀ r, (socks5Handshake user pass host portNum methodReply authReply
        connectReply).connectReq = some r → r = socks5ConnectReq host portNum) ∧
    (socks5ConnectReq host portNum).getD 3 0 = 3 ∧
    ((socks5Handshake user pass host portNum methodReply authReply
        connectReply).outcome = .ok () →
      10 ≤ connectReply.length ∧ (connectReply.take 10).getD 1 0 = 0) := by
  refine ⟨?_, ?_, ?_, ?_, rfl, ?_⟩
  · intro h
    have : ¬ (user ≠ "" ∧ pass ≠ "") := by
      rcases h with h | h <;> simp [h]
    simp [socks5Greeting, socks5AuthMethods, this]
  · intro hu hp
    simp [socks5Greeting, socks5AuthMethods, hu, hp]
  · intro m hlen h5 hm hm0 hm2
    have hrf : readFull 2 methodReply = some (methodReply.take 2) := by
      unfold readFull
      rw [if_neg (by omega)]
    simp only [socks5Handshake, hrf, h5, hm]
    simp [hm0, hm2]
  · intro r hr
    simp only [socks5Handshake] at hr
    rcases hrf : readFull 2 methodReply with _ | resp
    · rw [hrf] at hr
      simp at hr
    · rw [hrf] at hr
      dsimp only at hr
      by_cases h5 : resp.getD 0 0 ≠ 5
      · rw [if_pos h5] at hr
        simp at hr
      · rw [if_neg h5] at hr
        by_cases h2 : resp.getD 1 0 = 2
        · rw [if_pos h2] at hr
          rcases hra : readFull 2 authReply with _ | aresp
          · rw [hra] at hr
            simp at hr
          · rw [hra] at hr
            dsimp only at hr
            by_cases ha : aresp.getD 1 0 ≠ 0
            · rw [if_pos ha] at hr
              simp at hr
            · rw [if_neg ha, socks5Connect_sends_req] at hr
              exact (Option.some_inj.mp hr).symm
        · rw [if_neg h2] at hr
          by_cases h0 : resp.getD 1 0 ≠ 0
          · rw [if_pos h0] at hr
            simp at hr
          · rw [if_neg h0, socks5Connect_sends_req] at hr
            exact (Option.some_inj.mp hr).symm
  · intro hok
    simp only [socks5Handshake] at hok
    rcases hrf : readFull 2 methodReply with _ | resp
    · rw [hrf] at hok
      simp at hok
    · rw [hrf] at hok
      dsimp only at hok
      by_cases h5 : resp.getD 0 0 ≠ 5
      · rw [if_pos h5] at hok
        simp at hok
      · rw [if_neg h5] at hok
        by_cases h2 : resp.getD 1 0 = 2
        · rw [if_pos h2] at hok
          rcases hra : readFull 2 authReply with _ | aresp
          · rw [hra] at hok
            simp at hok
          · rw [hra] at hok
            dsimp only at hok
            by_cases ha : aresp.getD 1 0 ≠ 0
            · rw [if_pos ha] at hok
              simp at hok
            · rw [if_neg ha] at hok
              exact socks5Connect_ok _ _ _ _ _ hok
        · rw [if_neg h2] at hok
          by_cases h0 : resp.getD 1 0 ≠ 0
          · rw [if_pos h0] at hok
            simp at hok
          · rw [if_neg h0] at hok
            exact socks5Connect_ok _ _ _ _ _ hok

/-- Witness for claim C7 at concrete inputs: with no credentials the
greeting offers only no-auth; a proxy selecting method 0xFF makes the
handshake fail; and a clean no-auth run with an all-zero 10-byte connect
reply shows the reply was fully read. -/
theorem socks5_handshake_protocol_witness :
    socks5Greeting "" "" = [5, 1, 0] ∧
    (∃ e, (socks5Handshake "" "" "registry.example" 5000 [5, 255] []
      (List.replicate 10 0)).outcome = .error e) ∧
    (10 ≤ (List.replicate 10 0).length ∧
      ((List.replicate 10 0 : List Nat).take 10).getD 1 0 = 0) := by
  refine ⟨(socks5_handshake_protocol "" "" "h" 1 [] [] []).1 (Or.inl rfl), ?_, ?_⟩
  · exact (socks5_handshake_protocol "" "" "registry.example" 5000 [5, 255] []
      (List.replicate 10 0)).2.2.1 255 (by decide) (by decide) (by decide)
      (by decide) (by decide)
  · exact (socks5_handshake_protocol "" "" "registry.example" 5000 [5, 0] []
      (List.replicate 10 0)).2.2.2.2.2 rfl

/-! ## Claim C9: bounded fan-out concurrency -/

/-- The inductive invariant of the DumpAllRepositories fan-out. -/
def DumpInv (s : DumpSt) : Prop :=
  s.held = s.staged + s.running ∧ s.held ≤ 5 ∧ s.staged ≤ 1 ∧
  s.wg = s.staged + s.running + s.retiring ∧
  (s.returned = true → s.pending = 0 ∧ s.staged = 0 ∧ s.wg = 0)

/-- The invariant holds initially. -/
lemma dumpInv_init (n : Nat) : DumpInv (dumpInit n) := by
  exact ⟨rfl, Nat.zero_le 5, Nat.zero_le 1, rfl, fun h => Bool.noConfusion h⟩

/-- The invariant is preserved by every transition. -/
lemma dumpInv_step {a b : DumpSt} (h : DumpStep a b) (ha : DumpInv a) : DumpInv b := by
  obtain ⟨i1, i2, i3, i4, i5⟩ := ha
  cases h with
  | acquire h1 h2 h3 h4 =>
      exact ⟨by dsimp; omega, by dsimp; omega, by dsimp; omega, by dsimp; omega,
        fun hr => Bool.noConfusion hr⟩
  | spawn h1 =>
      refine ⟨by dsimp; omega, by dsimp; omega, by dsimp; omega, by dsimp; omega,
        fun hr => ?_⟩
      obtain ⟨j1, j2, j3⟩ := i5 hr
      exact ⟨by dsimp; omega, by dsimp; omega, by dsimp; omega⟩
  | release h1 =>
      refine ⟨by dsimp; omega, by dsimp; omega, by dsimp; omega, by dsimp; omega,
        fun hr => ?_⟩
      obtain ⟨j1, j2, j3⟩ := i5 hr
      exact ⟨by dsimp; omega, by dsimp; omega, by dsimp; omega⟩
  | done h1 =>
      refine ⟨by dsimp; omega, by dsimp; omega, by dsimp; omega, by dsimp; omega,
        fun hr => ?_⟩
      obtain ⟨j1, j2, j3⟩ := i5 hr
      exact ⟨by dsimp; omega, by dsimp; omega, by dsimp; omega⟩
  | ret h1 h2 h3 h4 =>
      exact ⟨by dsimp; omega, by dsimp; omega, by dsimp; omega, by dsimp; omega,
        fun _ => ⟨rfl, rfl, rfl⟩⟩

/-- The invariant holds in every reachable state. -/
lemma dumpInv_reach {a b : DumpSt} (hr : DumpReach a b) (ha : DumpInv a) : DumpInv b := by
  induction hr with
  | refl => exact ha
  | tail hs hstep ih => exact dumpInv_step hstep ih

/-- Claim C9: in every state the DumpAllRepositories fan-out can reach
from its start on any number of queued repositories, at most 5
repository-dump workers are running concurrently (the capacity of the
semaphore channel), and a state in which the call has returned has no
worker still running — wg.Wait completes only after every worker is
done. -/
theorem dumpAll_bounded_concurrency (n : Nat) (s : DumpSt)
    (h : DumpReach (dumpInit n) s) :
    s.running ≤ 5 ∧ (s.returned = true → s.running = 0) := by
  obtain ⟨i1, i2, i3, i4, i5⟩ := dumpInv_reach h (dumpInv_init n)
  exact ⟨by omega, fun hr => by have := i5 hr; omega⟩

/-- Witness for claim C9: from 20 queued repositories, after one
acquire and one spawn the reached state runs one worker, within the
ceiling of 5. -/
theorem dumpAll_bounded_concurrency_witness :
    (⟨19, 0, 1, 0, 1, 1, false⟩ : DumpSt).running ≤ 5 ∧
    ((⟨19, 0, 1, 0, 1, 1, false⟩ : DumpSt).returned = true →
      (⟨19, 0, 1, 0, 1, 1, false⟩ : DumpSt).running = 0) := by
  have h1 : DumpStep (dumpInit 20) ⟨19, 1, 0, 0, 1, 1, false⟩ :=
    DumpStep.acquire (dumpInit 20) rfl (by decide) rfl (by decide)
  have h2 : DumpStep (⟨19, 1, 0, 0, 1, 1, false⟩ : DumpSt) ⟨19, 0, 1, 0, 1, 1, false⟩ :=
    DumpStep.spawn _ (by decide)
  exact dumpAll_bounded_concurrency 20 _
    (Relation.ReflTransGen.tail (Relation.ReflTransGen.tail Relation.ReflTransGen.refl h1) h2)

end Dockdiver
